import Mathlib

/-!
Verification of the campaign-management dashboard core
(`CampaignDashboard` component: state, sorting, CRUD, persistence sync).

The development shallowly embeds the component logic:

* JavaScript runtime values that can appear as comparison values inside the
  `sortedCampaigns` comparator are modelled by `Campaigns.JsVal`
  (a number, a string, `NaN`, or `undefined`).  JavaScript numbers are
  modelled as `Int`; floating-point rounding plays no role in any of the
  properties checked here, while the special value `NaN` (which does) is
  modelled explicitly.
* A `Campaign` record mirrors the `Campaign` object shape: every field can
  be missing (`none` models an absent property, read back as `undefined`),
  since records may enter the collection through `JSON.parse` of the
  persisted value and not only through the validated form.
* `JSON.parse` / `JSON.stringify` and `new Date(x).getTime()` are host
  primitives; they are modelled by executable Lean functions faithful on
  the fragment the application exercises (documented at each definition).
* `Array.prototype.sort` with a comparator is modelled by the stable
  `List.mergeSort` on the boolean relation "comparator result is at most 0".
  ECMAScript requires the sort to be stable and, for consistent
  comparators, sorted according to the comparator; this is exactly the
  behaviour of `List.mergeSort`.
* The React component state plus the browser storage cell form
  `DashboardState`; user intents are `Event`s and `step` runs the event
  handler followed by the save effect exactly as the effect hooks do.
-/

namespace Campaigns

/-- A JavaScript runtime value as it can occur as a sort comparison value in
`sortedCampaigns`: a (finite) number, `NaN`, a string, or `undefined`. -/
inductive JsVal where
  | undef
  | num (n : Int)
  | nan
  | str (s : String)
deriving Repr, DecidableEq

/-- True exactly on finite numbers. -/
def JsVal.isNum : JsVal → Bool
  | JsVal.num _ => true
  | _ => false

/-- True exactly on strings. -/
def JsVal.isStr : JsVal → Bool
  | JsVal.str _ => true
  | _ => false

/-- Drop leading JSON/JavaScript whitespace characters. -/
def skipWs : List Char → List Char
  | c :: cs => if c = ' ' ∨ c = '\t' ∨ c = '\n' ∨ c = '\r' then skipWs cs else c :: cs
  | [] => []

/-- Numeric value of a decimal digit character. -/
def digitVal (c : Char) : Nat := c.toNat - 48

/-- Value of a list of decimal digit characters. -/
def digitsVal (cs : List Char) : Nat := cs.foldl (fun a c => 10 * a + digitVal c) 0

/-- Model of ECMAScript `ToNumber` on strings, restricted to the fragment
relevant here: surrounding whitespace is ignored, the empty (or all
whitespace) string converts to `0`, an optionally signed decimal integer
literal converts to its value, and everything else converts to `NaN`
(`none`). -/
def strToNumber (s : String) : Option Int :=
  let cs := (skipWs (skipWs s.toList).reverse).reverse
  match cs with
  | [] => some 0
  | '-' :: ds => if ds ≠ [] ∧ ds.all Char.isDigit then some (-(digitsVal ds : Int)) else none
  | '+' :: ds => if ds ≠ [] ∧ ds.all Char.isDigit then some (digitsVal ds : Int) else none
  | ds => if ds.all Char.isDigit then some (digitsVal ds : Int) else none

/-- ECMAScript `ToNumber` on the modelled values; `none` stands for `NaN`. -/
def jsToNumber : JsVal → Option Int
  | JsVal.undef => none
  | JsVal.nan => none
  | JsVal.num n => some n
  | JsVal.str s => strToNumber s

/-- ECMAScript abstract relational comparison `a < b`: two strings compare
lexicographically, otherwise both operands go through `ToNumber` and any
`NaN` makes the comparison false. -/
def jsLt (a b : JsVal) : Bool :=
  match a, b with
  | JsVal.str x, JsVal.str y => decide (x < y)
  | _, _ =>
    match jsToNumber a, jsToNumber b with
    | some x, some y => decide (x < y)
    | _, _ => false

/-- ECMAScript `a > b`, which is the relational comparison `b < a`. -/
def jsGt (a b : JsVal) : Bool := jsLt b a

/-- JavaScript subtraction `a - b`: both operands through `ToNumber`;
any `NaN` operand makes the result `NaN`. -/
def jsSub (a b : JsVal) : JsVal :=
  match jsToNumber a, jsToNumber b with
  | some x, some y => JsVal.num (x - y)
  | _, _ => JsVal.nan

/-- The nullish coalescing `v ?? 0` from the comparator: only `undefined`
(our values are never `null`) is replaced by the number `0`; in particular
`NaN ?? 0` is still `NaN`. -/
def coalesce0 : JsVal → JsVal
  | JsVal.undef => JsVal.num 0
  | v => v

/-- Number of days in a month of the proleptic Gregorian calendar. -/
def daysInMonth (y m : Nat) : Nat :=
  if m = 2 then
    if y % 4 = 0 ∧ (y % 100 ≠ 0 ∨ y % 400 = 0) then 29 else 28
  else if m = 4 ∨ m = 6 ∨ m = 9 ∨ m = 11 then 30
  else 31

/-- Days since the Unix epoch of the civil date `y-m-d` (valid Gregorian
date, `y ≤ 9999`), computed with the standard era decomposition shifted by
one 400-year era so that all intermediate values stay in `Nat`. -/
def daysFromCivil (y m d : Nat) : Int :=
  let yy := if m ≤ 2 then y + 399 else y + 400
  let era := yy / 400
  let yoe := yy % 400
  let mp := (m + 9) % 12
  let doy := (153 * mp + 2) / 5 + (d - 1)
  let doe := yoe * 365 + yoe / 4 - yoe / 100 + doy
  (era * 146097 + doe : Int) - 865565

/-- Model of parsing a date string as `new Date(s)` does, restricted to the
date-only ISO-8601 form `YYYY-MM-DD` produced by the date inputs of the
form: it denotes midnight UTC of that day.  The result is the timestamp in
milliseconds; `none` stands for an invalid date (timestamp `NaN`). -/
def parseDateMs (s : String) : Option Int :=
  match s.toList with
  | [y1, y2, y3, y4, '-', m1, m2, '-', d1, d2] =>
    if ([y1, y2, y3, y4, m1, m2, d1, d2]).all Char.isDigit then
      let y := digitsVal [y1, y2, y3, y4]
      let m := digitsVal [m1, m2]
      let d := digitsVal [d1, d2]
      if 1 ≤ m ∧ m ≤ 12 ∧ 1 ≤ d ∧ d ≤ daysInMonth y m then
        some (86400000 * daysFromCivil y m d)
      else none
    else none
  | _ => none

/-- `new Date(v).getTime()` on a modelled value: a string is parsed as a
date (an unparseable one gives an invalid date, hence `NaN`), a number is
taken as a timestamp, and `undefined` or `NaN` give an invalid date. -/
def jsDateGetTime : JsVal → JsVal
  | JsVal.str s =>
    match parseDateMs s with
    | some t => JsVal.num t
    | none => JsVal.nan
  | JsVal.num n => JsVal.num n
  | JsVal.undef => JsVal.nan
  | JsVal.nan => JsVal.nan

/-- The sortable fields of a campaign record: `keyof Campaign` as used by
`handleSort` and the comparator (the seven stored fields plus the derived
`profit` pseudo-field, which appears in `keyof Campaign`). -/
inductive Field where
  | id
  | name
  | startDate
  | endDate
  | clicks
  | cost
  | revenue
  | profit
deriving Repr, DecidableEq

/-- A campaign record.  The `lib/types` source file is not part of the
sources; the shape follows the specification (§3) and every use site
(`campaign-form` builds `id, name, startDate, endDate, clicks, cost,
revenue`; the comparator additionally mentions `profit` as a key of
`Campaign`).  Every field is optional, because records can also enter the
collection via `JSON.parse` of the persisted value, where any property may
be missing; an absent property reads back as `undefined`. -/
structure Campaign where
  id : Option String
  name : Option String
  startDate : Option String
  endDate : Option String
  clicks : Option Int
  cost : Option Int
  revenue : Option Int
  profit : Option Int
deriving Repr, DecidableEq

/-- Property read `c[f]` on a campaign record: a missing property is
`undefined`. -/
def getField (c : Campaign) : Field → JsVal
  | Field.id => match c.id with | some s => JsVal.str s | none => JsVal.undef
  | Field.name => match c.name with | some s => JsVal.str s | none => JsVal.undef
  | Field.startDate => match c.startDate with | some s => JsVal.str s | none => JsVal.undef
  | Field.endDate => match c.endDate with | some s => JsVal.str s | none => JsVal.undef
  | Field.clicks => match c.clicks with | some n => JsVal.num n | none => JsVal.undef
  | Field.cost => match c.cost with | some n => JsVal.num n | none => JsVal.undef
  | Field.revenue => match c.revenue with | some n => JsVal.num n | none => JsVal.undef
  | Field.profit => match c.profit with | some n => JsVal.num n | none => JsVal.undef

/-- The comparison value the `sortedCampaigns` comparator resolves for a
record, before the `?? 0` fallback: start from `a[sortField]`, replace it
by `a.revenue - a.cost` when sorting by `profit`, and by
`new Date(a[sortField]).getTime()` when sorting by a date field. -/
def resolveValue (f : Field) (a : Campaign) : JsVal :=
  let v := getField a f
  let v := if f = Field.profit then jsSub (getField a Field.revenue) (getField a Field.cost) else v
  let v := if f = Field.startDate ∨ f = Field.endDate then jsDateGetTime (getField a f) else v
  v

/-- The final comparison value of a record: the resolved value with the
`?? 0` fallback applied (`aVal` in the source). -/
def sortValue (f : Field) (a : Campaign) : JsVal :=
  coalesce0 (resolveValue f a)

/-- Sort direction state of the dashboard. -/
inductive SortDir where
  | asc
  | desc
deriving Repr, DecidableEq

/-- The three-way comparison at the heart of the comparator, on the two
final comparison values: `-1`/`1` flipped with the direction, `0` when
neither value is `<` the other. -/
def jsCompare (dir : SortDir) (x y : JsVal) : Int :=
  if jsLt x y then (match dir with | SortDir.asc => -1 | SortDir.desc => 1)
  else if jsGt x y then (match dir with | SortDir.asc => 1 | SortDir.desc => -1)
  else 0

/-- The comparator passed to `sort` in `sortedCampaigns`. -/
def compareCampaigns (f : Field) (dir : SortDir) (a b : Campaign) : Int :=
  jsCompare dir (sortValue f a) (sortValue f b)

/-- `[...campaigns].sort(comparator)`: a stable sort of a copy of the
collection according to the comparator, modelled by `List.mergeSort` on the
relation "comparator result at most `0`". -/
def sortedCampaigns (f : Field) (dir : SortDir) (l : List Campaign) : List Campaign :=
  l.mergeSort (fun a b => decide (compareCampaigns f dir a b ≤ 0))

/-- A JSON value, as produced by `JSON.parse`.  A number is kept in
scientific form `mantissa * 10 ^ exp10` exactly as written, which loses
nothing the application looks at. -/
inductive Json where
  | null
  | bool (b : Bool)
  | num (mantissa : Int) (exp10 : Int)
  | str (s : String)
  | arr (elems : List Json)
  | obj (members : List (String × Json))
deriving Repr

/-- Convert a hexadecimal digit character. -/
def hexVal (c : Char) : Option Nat :=
  if c.isDigit then some (c.toNat - 48)
  else if 'a' ≤ c ∧ c ≤ 'f' then some (c.toNat - 87)
  else if 'A' ≤ c ∧ c ≤ 'F' then some (c.toNat - 70)
  else none

/-- Parse the body of a JSON string literal after the opening quote, up to
and including the closing quote, handling the escape sequences of the JSON
grammar; raw control characters are rejected as in the grammar.  (A
`\uXXXX` escape becomes the corresponding character; lone surrogates,
which Lean characters cannot represent, are outside the modelled
fragment.) -/
def parseStringBody : List Char → Option (List Char × List Char)
  | [] => none
  | '"' :: rest => some ([], rest)
  | '\\' :: e :: rest =>
    match e with
    | '"' => (fun p => ('"' :: p.1, p.2)) <$> parseStringBody rest
    | '\\' => (fun p => ('\\' :: p.1, p.2)) <$> parseStringBody rest
    | '/' => (fun p => ('/' :: p.1, p.2)) <$> parseStringBody rest
    | 'b' => (fun p => ('\x08' :: p.1, p.2)) <$> parseStringBody rest
    | 'f' => (fun p => ('\x0c' :: p.1, p.2)) <$> parseStringBody rest
    | 'n' => (fun p => ('\n' :: p.1, p.2)) <$> parseStringBody rest
    | 'r' => (fun p => ('\r' :: p.1, p.2)) <$> parseStringBody rest
    | 't' => (fun p => ('\t' :: p.1, p.2)) <$> parseStringBody rest
    | 'u' =>
      match rest with
      | h1 :: h2 :: h3 :: h4 :: rest2 =>
        match hexVal h1, hexVal h2, hexVal h3, hexVal h4 with
        | some a, some b, some c, some d =>
          (fun p => (Char.ofNat (((a * 16 + b) * 16 + c) * 16 + d) :: p.1, p.2)) <$>
            parseStringBody rest2
        | _, _, _, _ => none
      | _ => none
    | _ => none
  | c :: rest =>
    if c.toNat < 32 then none
    else (fun p => (c :: p.1, p.2)) <$> parseStringBody rest

/-- Parse a JSON number literal (optional minus, integer part without
leading zeros, optional fraction, optional exponent). -/
def parseNumber (cs : List Char) : Option (Json × List Char) :=
  let signed : Bool × List Char := match cs with
    | '-' :: r => (true, r)
    | _ => (false, cs)
  let neg := signed.1
  match signed.2 with
  | c :: r =>
    if ¬ c.isDigit then none
    else
      let ipart : Option (Nat × List Char) :=
        if c = '0' then some (0, r)
        else
          let sp := (c :: r).span Char.isDigit
          some (digitsVal sp.1, sp.2)
      match ipart with
      | none => none
      | some (iv, r1) =>
        let frac : Option (Nat × Nat × List Char) :=
          match r1 with
          | '.' :: r2 =>
            let sp := r2.span Char.isDigit
            if sp.1 = [] then none else some (digitsVal sp.1, sp.1.length, sp.2)
          | _ => some (0, 0, r1)
        match frac with
        | none => none
        | some (fv, fd, r3) =>
          let expo : Option (Int × List Char) :=
            match r3 with
            | 'e' :: r4 | 'E' :: r4 =>
              let esigned : Bool × List Char := match r4 with
                | '-' :: r5 => (true, r5)
                | '+' :: r5 => (false, r5)
                | _ => (false, r4)
              let sp := esigned.2.span Char.isDigit
              if sp.1 = [] then none
              else some (if esigned.1 then -(digitsVal sp.1 : Int) else (digitsVal sp.1 : Int), sp.2)
            | _ => some (0, r3)
          match expo with
          | none => none
          | some (ev, r6) =>
            let mant : Int := (iv * 10 ^ fd + fv : Nat)
            some (Json.num (if neg then -mant else mant) (ev - fd), r6)
  | [] => none

mutual

/-- Parse a JSON value (fuel-indexed recursive descent; the fuel only has
to dominate the input length). -/
def parseValue : Nat → List Char → Option (Json × List Char)
  | 0, _ => none
  | Nat.succ fuel, cs =>
    match skipWs cs with
    | 'n' :: 'u' :: 'l' :: 'l' :: r => some (Json.null, r)
    | 't' :: 'r' :: 'u' :: 'e' :: r => some (Json.bool true, r)
    | 'f' :: 'a' :: 'l' :: 's' :: 'e' :: r => some (Json.bool false, r)
    | '"' :: r => (fun p => (Json.str (String.mk p.1), p.2)) <$> parseStringBody r
    | '[' :: r =>
      (match skipWs r with
      | ']' :: r2 => some (Json.arr [], r2)
      | r1 => (fun p => (Json.arr p.1, p.2)) <$> parseElems fuel r1)
    | '\x7b' :: r =>
      (match skipWs r with
      | '\x7d' :: r2 => some (Json.obj [], r2)
      | r1 => (fun p => (Json.obj p.1, p.2)) <$> parseMembers fuel r1)
    | cs1 => parseNumber cs1

/-- Parse the non-empty element list of a JSON array, consuming the closing
bracket. -/
def parseElems : Nat → List Char → Option (List Json × List Char)
  | 0, _ => none
  | Nat.succ fuel, cs => do
    let (v, r) ← parseValue fuel cs
    match skipWs r with
    | ',' :: r2 => (fun p => (v :: p.1, p.2)) <$> parseElems fuel r2
    | ']' :: r2 => some ([v], r2)
    | _ => none

/-- Parse the non-empty member list of a JSON object, consuming the closing
brace. -/
def parseMembers : Nat → List Char → Option (List (String × Json) × List Char)
  | 0, _ => none
  | Nat.succ fuel, cs =>
    match skipWs cs with
    | '"' :: r => do
      let (k, r1) ← parseStringBody r
      match skipWs r1 with
      | ':' :: r2 => do
        let (v, r3) ← parseValue fuel r2
        match skipWs r3 with
        | ',' :: r4 => (fun p => ((String.mk k, v) :: p.1, p.2)) <$> parseMembers fuel r4
        | '\x7d' :: r4 => some ([(String.mk k, v)], r4)
        | _ => none
      | _ => none
    | _ => none

end

/-- Model of the host `JSON.parse`: parse one JSON value with nothing but
whitespace after it; `none` models a thrown `SyntaxError`. -/
def jsonParse (s : String) : Option Json :=
  let cs := s.toList
  match parseValue (cs.length + 1) cs with
  | some (v, rest) => if skipWs rest = [] then some v else none
  | none => none

/-- The error a failed `JSON.parse` throws. -/
inductive JsError where
  | syntaxError
deriving Repr, DecidableEq

/-- The mount effect of the component:

    const savedCampaigns = localStorage.getItem("campaigns")
    if (savedCampaigns) setCampaigns(JSON.parse(savedCampaigns))

`stored` is the value under the `campaigns` key (`none` when absent).  The
result describes what the effect does: `Except.ok none` means the guard was
falsy (key absent, or the empty string) and the campaigns state keeps its
initial value `[]`; `Except.ok (some v)` means `setCampaigns` received the
parsed value `v` (whatever its shape — nothing checks it is an array of
campaign records); `Except.error` means `JSON.parse` threw and nothing in
the effect catches the exception. -/
def loadEffect (stored : Option String) : Except JsError (Option Json) :=
  match stored with
  | none => Except.ok none
  | some s =>
    if s = "" then Except.ok none
    else
      match jsonParse s with
      | some v => Except.ok (some v)
      | none => Except.error JsError.syntaxError

/-- JSON string escaping of one character, as `JSON.stringify` performs. -/
def escapeJsonChar (c : Char) : String :=
  if c = '"' then "\\\""
  else if c = '\\' then "\\\\"
  else if c = '\n' then "\\n"
  else if c = '\r' then "\\r"
  else if c = '\t' then "\\t"
  else String.singleton c

/-- A JSON string literal for `s`. -/
def quoteJson (s : String) : String :=
  "\"" ++ String.join (s.toList.map escapeJsonChar) ++ "\""

/-- `JSON.stringify` of one campaign record: the present properties, in
declaration order, as a JSON object; absent (`undefined`) properties are
omitted, as `JSON.stringify` omits them. -/
def stringifyCampaign (c : Campaign) : String :=
  let fields : List (Option String) :=
    [c.id.map (fun v => "\"id\":" ++ quoteJson v),
     c.name.map (fun v => "\"name\":" ++ quoteJson v),
     c.startDate.map (fun v => "\"startDate\":" ++ quoteJson v),
     c.endDate.map (fun v => "\"endDate\":" ++ quoteJson v),
     c.clicks.map (fun n => "\"clicks\":" ++ toString n),
     c.cost.map (fun n => "\"cost\":" ++ toString n),
     c.revenue.map (fun n => "\"revenue\":" ++ toString n),
     c.profit.map (fun n => "\"profit\":" ++ toString n)]
  "\x7b" ++ String.intercalate "," (fields.filterMap id) ++ "\x7d"

/-- `JSON.stringify(campaigns)`: the full collection as a JSON array. -/
def stringifyCampaigns (l : List Campaign) : String :=
  "[" ++ String.intercalate "," (l.map stringifyCampaign) ++ "]"

/-- The component state together with the persistent storage cell: the
`campaigns`, `sortField` and `sortDirection` state hooks, and the value
stored under the fixed `localStorage` key `campaigns` (`none` when the key
is absent).  The modal-visibility state is pure presentation and carries no
logic, so it is not modelled. -/
structure DashboardState where
  campaigns : List Campaign
  sortField : Field
  sortDirection : SortDir
  store : Option String
deriving Repr, DecidableEq

/-- Initial hook state: empty collection, sort by `name` ascending;
`store0` is whatever the storage held before mount. -/
def initState (store0 : Option String) : DashboardState :=
  { campaigns := [], sortField := Field.name, sortDirection := SortDir.asc, store := store0 }

/-- `handleAddCampaign`: `setCampaigns([...campaigns, campaign])` — append
to the end of the collection. -/
def handleAddCampaign (c : Campaign) (s : DashboardState) : DashboardState :=
  { s with campaigns := s.campaigns ++ [c] }

/-- The filter inside `handleDeleteCampaign`:
`campaigns.filter((campaign) => campaign.id !== id)`.  A record whose `id`
property is absent is kept (`undefined !== id` is true). -/
def removeCampaign (i : String) (l : List Campaign) : List Campaign :=
  l.filter (fun c => decide (c.id ≠ some i))

/-- `handleDeleteCampaign`: replace the collection by the filtered one. -/
def handleDeleteCampaign (i : String) (s : DashboardState) : DashboardState :=
  { s with campaigns := removeCampaign i s.campaigns }

/-- Toggle of the sort direction. -/
def flipDir : SortDir → SortDir
  | SortDir.asc => SortDir.desc
  | SortDir.desc => SortDir.asc

/-- `handleSort`: clicking the current sort field toggles the direction;
clicking a new field selects it and resets the direction to ascending. -/
def handleSort (f : Field) (s : DashboardState) : DashboardState :=
  if f = s.sortField then
    { s with sortDirection := flipDir s.sortDirection }
  else
    { s with sortField := f, sortDirection := SortDir.asc }

/-- The save effect hook: whenever the campaigns state changes,
`localStorage.setItem("campaigns", JSON.stringify(campaigns))` — a full
overwrite of the single fixed key. -/
def saveEffect (s : DashboardState) : DashboardState :=
  { s with store := some (stringifyCampaigns s.campaigns) }

/-- A user intent forwarded into the component by the rendering layer. -/
inductive Event where
  | add (c : Campaign)
  | remove (i : String)
  | sortClick (f : Field)

/-- One event-loop step: run the handler, then the save effect exactly when
the handler replaced the campaigns state (add and delete always install a
fresh array, so the effect fires after each of them; a sort click does not
touch the campaigns state, so no save happens). -/
def step (s : DashboardState) : Event → DashboardState
  | Event.add c => saveEffect (handleAddCampaign c s)
  | Event.remove i => saveEffect (handleDeleteCampaign i s)
  | Event.sortClick f => handleSort f s

/-- Mount followed by a sequence of add events, starting from the initial
state: used to state the uniqueness invariant. -/
def runAdds (store0 : Option String) (cs : List Campaign) : DashboardState :=
  cs.foldl (fun s c => step s (Event.add c)) (initState store0)

/-- C1.  The claim states that a present but malformed persisted value
makes `load()` fall back to an empty collection without any unhandled
error.  In the source the mount effect calls `JSON.parse` with no
`try`/`catch`, so the stored string `"not json"` — present, and not
deserializable — makes `JSON.parse` throw a `SyntaxError` that nothing
handles: the effect does not complete normally, refuting the claim at this
input. -/
theorem c1_counterexample :
    loadEffect (some "not json") = Except.error JsError.syntaxError := by
  rfl

/-- C1 (amended).  If the persisted value under the campaigns key is
present, truthy, and not parseable as JSON, then the mount effect
propagates an uncaught `SyntaxError` from `JSON.parse`; no fallback to an
empty collection is performed by the code (the campaigns state merely
stays at its initial `[]` because `setCampaigns` is never reached). -/
theorem c1_load_malformed_throws (s : String) (hne : s ≠ "") (hbad : jsonParse s = none) :
    loadEffect (some s) = Except.error JsError.syntaxError := by
  simp [loadEffect, hne, hbad]

/-- C1 witness: the amended theorem at the concrete malformed value
`"oops"`. -/
theorem c1_witness : loadEffect (some "oops") = Except.error JsError.syntaxError :=
  c1_load_malformed_throws "oops" (by decide) (by rfl)

/-- C2.  After every mutation — every add and every remove — the persisted
value under the fixed key equals the serialization of the full current
in-memory collection: the save effect performs a full overwrite, with no
partial or incremental writes. -/
theorem c2_persisted_reflects_collection (s : DashboardState) (c : Campaign) (i : String) :
    (step s (Event.add c)).store = some (stringifyCampaigns (step s (Event.add c)).campaigns) ∧
      (step s (Event.remove i)).store =
        some (stringifyCampaigns (step s (Event.remove i)).campaigns) := by
  constructor <;> rfl

/-- Two comparators that agree on every pair of elements of a list produce
the same merge sort of that list. -/
theorem mergeSort_congr {α : Type} {le leT : α → α → Bool} {l : List α}
    (h : ∀ a ∈ l, ∀ b ∈ l, le a b = leT a b) :
    l.mergeSort le = l.mergeSort leT := by
  have hm := List.map_mergeSort (f := id) (l := l) (r := le) (s := leT)
    (fun a ha b hb => h a ha b hb)
  simpa using hm

/-- Stability of the modelled sort: if on the elements of `l` the sort
relation agrees with a transitive total relation `leT`, and all elements
satisfying `p` are mutually `leT`-tied, then sorting does not change the
subsequence of elements satisfying `p`. -/
theorem mergeSort_filter_stable {α : Type} (le leT : α → α → Bool) (l : List α) (p : α → Bool)
    (htrans : ∀ a b c, leT a b → leT b c → leT a c)
    (htotal : ∀ a b, leT a b || leT b a)
    (hagree : ∀ a ∈ l, ∀ b ∈ l, le a b = leT a b)
    (htied : ∀ a ∈ l, ∀ b ∈ l, p a → p b → leT a b) :
    (l.mergeSort le).filter p = l.filter p := by
  rw [mergeSort_congr hagree]
  have hsub : List.Sublist (l.filter p) l := List.filter_sublist l
  have hpair : (l.filter p).Pairwise (fun a b => leT a b = true) := by
    apply List.pairwise_of_forall_mem_list
    intro a ha b hb
    have ha2 := List.mem_filter.mp ha
    have hb2 := List.mem_filter.mp hb
    exact htied a ha2.1 b hb2.1 ha2.2 hb2.2
  have hstab : List.Sublist (l.filter p) (l.mergeSort leT) :=
    List.sublist_mergeSort htrans htotal hpair hsub
  have hself : (l.filter p).filter p = l.filter p :=
    List.filter_eq_self.mpr (fun a ha => (List.mem_filter.mp ha).2)
  have h1 : List.Sublist (l.filter p) ((l.mergeSort leT).filter p) := by
    have h2 := List.Sublist.filter p hstab
    rwa [hself] at h2
  have hperm : ((l.mergeSort leT).filter p).Perm (l.filter p) :=
    (List.mergeSort_perm l leT).filter p
  exact (h1.eq_of_length hperm.length_eq.symm).symm

/-- A value satisfying `isNum` is a number. -/
theorem isNum_elim : ∀ {v : JsVal}, v.isNum = true → ∃ n, v = JsVal.num n
  | JsVal.num n, _ => ⟨n, rfl⟩

/-- A value satisfying `isStr` is a string. -/
theorem isStr_elim : ∀ {v : JsVal}, v.isStr = true → ∃ s, v = JsVal.str s
  | JsVal.str s, _ => ⟨s, rfl⟩

/-- The numeric key of a record under a sort field; meaningful on records
whose final comparison value is a number. -/
def keyN (f : Field) (c : Campaign) : Int :=
  match sortValue f c with
  | JsVal.num n => n
  | _ => 0

/-- The string key of a record under a sort field; meaningful on records
whose final comparison value is a string. -/
def keyS (f : Field) (c : Campaign) : String :=
  match sortValue f c with
  | JsVal.str s => s
  | _ => ""

/-- On two numbers, the ascending comparator is nonpositive exactly for the
numeric order. -/
theorem jsCompare_le_zero_num_asc (m n : Int) :
    jsCompare SortDir.asc (JsVal.num m) (JsVal.num n) ≤ 0 ↔ m ≤ n := by
  rcases lt_trichotomy m n with h | h | h <;>
    simp [jsCompare, jsLt, jsGt, jsToNumber, h, le_of_lt, lt_irrefl, lt_asymm,
      not_lt_of_gt, not_le_of_gt]

/-- On two numbers, the descending comparator is nonpositive exactly for
the reversed numeric order. -/
theorem jsCompare_le_zero_num_desc (m n : Int) :
    jsCompare SortDir.desc (JsVal.num m) (JsVal.num n) ≤ 0 ↔ n ≤ m := by
  rcases lt_trichotomy m n with h | h | h <;>
    simp [jsCompare, jsLt, jsGt, jsToNumber, h, le_of_lt, lt_irrefl, lt_asymm,
      not_lt_of_gt, not_le_of_gt]

/-- On two strings, the ascending comparator is nonpositive exactly for the
lexicographic order. -/
theorem jsCompare_le_zero_str_asc (x y : String) :
    jsCompare SortDir.asc (JsVal.str x) (JsVal.str y) ≤ 0 ↔ x ≤ y := by
  rcases lt_trichotomy x y with h | h | h <;>
    simp [jsCompare, jsLt, jsGt, h, le_of_lt, lt_irrefl, lt_asymm,
      not_lt_of_gt, not_le_of_gt]

/-- On two strings, the descending comparator is nonpositive exactly for
the reversed lexicographic order. -/
theorem jsCompare_le_zero_str_desc (x y : String) :
    jsCompare SortDir.desc (JsVal.str x) (JsVal.str y) ≤ 0 ↔ y ≤ x := by
  rcases lt_trichotomy x y with h | h | h <;>
    simp [jsCompare, jsLt, jsGt, h, le_of_lt, lt_irrefl, lt_asymm,
      not_lt_of_gt, not_le_of_gt]

/-- Record constructor for the C3 counterexample: id and name `i`, start
date `sd`, fixed remaining fields. -/
def c3Mk (i : String) (sd : Option String) : Campaign :=
  { id := some i, name := some i, startDate := sd, endDate := some "2024-02-01",
    clicks := some 0, cost := some 0, revenue := some 0, profit := none }

/-- A collection in which the records `A` and `C` have equal resolved
start-date values while record `n` has no start date (its comparison value
is `NaN`, which ties with every value and makes the comparator
inconsistent). -/
def c3List : List Campaign :=
  [c3Mk "w" (some "2024-01-02"), c3Mk "z" (some "2024-01-02"), c3Mk "n" none,
   c3Mk "A" (some "2024-01-01"), c3Mk "C" (some "2024-01-01"),
   c3Mk "p" (some "2024-01-02"), c3Mk "q" (some "2024-01-02"), c3Mk "r" (some "2024-01-02")]

set_option maxHeartbeats 1000000 in
/-- C3.  The claim asserts stability for every collection with tied
records.  In `c3List` the records with ids `A` and `C` have equal resolved
comparison values for `startDate` (both dates parse to the same timestamp
class — here to `2024-01-01`), yet sorting ascending by `startDate`
reverses their relative order, because the record without a start date
compares as `NaN` and makes the comparator inconsistent, which defeats
stability of the tied pair. -/
theorem c3_counterexample :
    (c3List.filter
        (fun c => decide (sortValue Field.startDate c = JsVal.num 1704067200000))).map
        Campaign.id = [some "A", some "C"] ∧
      ((sortedCampaigns Field.startDate SortDir.asc c3List).filter
        (fun c => decide (sortValue Field.startDate c = JsVal.num 1704067200000))).map
        Campaign.id = [some "C", some "A"] := by
  have cHH : ∀ i j : String, compareCampaigns Field.startDate SortDir.asc
      (c3Mk i (some "2024-01-02")) (c3Mk j (some "2024-01-02")) = 0 := fun _ _ => rfl
  have cLL : ∀ i j : String, compareCampaigns Field.startDate SortDir.asc
      (c3Mk i (some "2024-01-01")) (c3Mk j (some "2024-01-01")) = 0 := fun _ _ => rfl
  have cHL : ∀ i j : String, compareCampaigns Field.startDate SortDir.asc
      (c3Mk i (some "2024-01-02")) (c3Mk j (some "2024-01-01")) = 1 := fun _ _ => rfl
  have cLH : ∀ i j : String, compareCampaigns Field.startDate SortDir.asc
      (c3Mk i (some "2024-01-01")) (c3Mk j (some "2024-01-02")) = -1 := fun _ _ => rfl
  have cHn : ∀ i j : String, compareCampaigns Field.startDate SortDir.asc
      (c3Mk i (some "2024-01-02")) (c3Mk j none) = 0 := fun _ _ => rfl
  have cnH : ∀ i j : String, compareCampaigns Field.startDate SortDir.asc
      (c3Mk i none) (c3Mk j (some "2024-01-02")) = 0 := fun _ _ => rfl
  have cLn : ∀ i j : String, compareCampaigns Field.startDate SortDir.asc
      (c3Mk i (some "2024-01-01")) (c3Mk j none) = 0 := fun _ _ => rfl
  have cnL : ∀ i j : String, compareCampaigns Field.startDate SortDir.asc
      (c3Mk i none) (c3Mk j (some "2024-01-01")) = 0 := fun _ _ => rfl
  have h1 : sortedCampaigns Field.startDate SortDir.asc c3List =
      [c3Mk "C" (some "2024-01-01"), c3Mk "w" (some "2024-01-02"), c3Mk "z" (some "2024-01-02"),
       c3Mk "n" none, c3Mk "A" (some "2024-01-01"), c3Mk "p" (some "2024-01-02"),
       c3Mk "q" (some "2024-01-02"), c3Mk "r" (some "2024-01-02")] := by
    simp [sortedCampaigns, c3List, List.mergeSort, List.merge,
      cHH, cLL, cHL, cLH, cHn, cnH, cLn, cnL]
  rw [h1]
  exact ⟨by decide, by decide⟩

/-- C3 (amended).  On every collection all of whose records resolve (after
the `?? 0` fallback) to number comparison values, or all to string
comparison values — in particular no `NaN` from a missing or unparseable
date and no mixing of fallback `0` with strings — the produced view is
stable: for every value `k`, the subsequence of records whose comparison
value equals `k` is exactly the same, in the same order, as in the
original collection, for both directions.  There is no secondary
tie-break. -/
theorem c3_stable_sort (f : Field) (dir : SortDir) (l : List Campaign) (k : JsVal)
    (h : (∀ c ∈ l, (sortValue f c).isNum = true) ∨ (∀ c ∈ l, (sortValue f c).isStr = true)) :
    (sortedCampaigns f dir l).filter (fun c => decide (sortValue f c = k)) =
      l.filter (fun c => decide (sortValue f c = k)) := by
  rcases h with hnum | hstr
  · rcases dir with _ | _
    · refine mergeSort_filter_stable _ (fun a b => decide (keyN f a ≤ keyN f b)) l _
        ?_ ?_ ?_ ?_
      · intro a b c hab hbc
        simp only [decide_eq_true_eq] at hab hbc ⊢
        omega
      · intro a b
        simp only [Bool.or_eq_true, decide_eq_true_eq]
        omega
      · intro a ha b hb
        obtain ⟨m, hm⟩ := isNum_elim (hnum a ha)
        obtain ⟨n, hn⟩ := isNum_elim (hnum b hb)
        have hm2 : keyN f a = m := by simp [keyN, hm]
        have hn2 : keyN f b = n := by simp [keyN, hn]
        simp only [compareCampaigns, hm, hn, hm2, hn2]
        exact decide_eq_decide.mpr (jsCompare_le_zero_num_asc m n)
      · intro a ha b hb hpa hpb
        simp only [decide_eq_true_eq] at hpa hpb ⊢
        rw [keyN, keyN, hpa, hpb]
    · refine mergeSort_filter_stable _ (fun a b => decide (keyN f b ≤ keyN f a)) l _
        ?_ ?_ ?_ ?_
      · intro a b c hab hbc
        simp only [decide_eq_true_eq] at hab hbc ⊢
        omega
      · intro a b
        simp only [Bool.or_eq_true, decide_eq_true_eq]
        omega
      · intro a ha b hb
        obtain ⟨m, hm⟩ := isNum_elim (hnum a ha)
        obtain ⟨n, hn⟩ := isNum_elim (hnum b hb)
        have hm2 : keyN f a = m := by simp [keyN, hm]
        have hn2 : keyN f b = n := by simp [keyN, hn]
        simp only [compareCampaigns, hm, hn, hm2, hn2]
        exact decide_eq_decide.mpr (jsCompare_le_zero_num_desc m n)
      · intro a ha b hb hpa hpb
        simp only [decide_eq_true_eq] at hpa hpb ⊢
        rw [keyN, keyN, hpa, hpb]
  · rcases dir with _ | _
    · refine mergeSort_filter_stable _ (fun a b => decide (keyS f a ≤ keyS f b)) l _
        ?_ ?_ ?_ ?_
      · intro a b c hab hbc
        simp only [decide_eq_true_eq] at hab hbc ⊢
        exact le_trans hab hbc
      · intro a b
        simp only [Bool.or_eq_true, decide_eq_true_eq]
        exact le_total _ _
      · intro a ha b hb
        obtain ⟨x, hx⟩ := isStr_elim (hstr a ha)
        obtain ⟨y, hy⟩ := isStr_elim (hstr b hb)
        have hx2 : keyS f a = x := by simp [keyS, hx]
        have hy2 : keyS f b = y := by simp [keyS, hy]
        simp only [compareCampaigns, hx, hy, hx2, hy2]
        exact decide_eq_decide.mpr (jsCompare_le_zero_str_asc x y)
      · intro a ha b hb hpa hpb
        simp only [decide_eq_true_eq] at hpa hpb ⊢
        rw [keyS, keyS, hpa, hpb]
    · refine mergeSort_filter_stable _ (fun a b => decide (keyS f b ≤ keyS f a)) l _
        ?_ ?_ ?_ ?_
      · intro a b c hab hbc
        simp only [decide_eq_true_eq] at hab hbc ⊢
        exact le_trans hbc hab
      · intro a b
        simp only [Bool.or_eq_true, decide_eq_true_eq]
        exact le_total _ _
      · intro a ha b hb
        obtain ⟨x, hx⟩ := isStr_elim (hstr a ha)
        obtain ⟨y, hy⟩ := isStr_elim (hstr b hb)
        have hx2 : keyS f a = x := by simp [keyS, hx]
        have hy2 : keyS f b = y := by simp [keyS, hy]
        simp only [compareCampaigns, hx, hy, hx2, hy2]
        exact decide_eq_decide.mpr (jsCompare_le_zero_str_desc x y)
      · intro a ha b hb hpa hpb
        simp only [decide_eq_true_eq] at hpa hpb ⊢
        rw [keyS, keyS, hpa, hpb]

/-- Three records tied on `cost`, used by the C3 witness. -/
def c3WList : List Campaign :=
  [{ id := some "a", name := some "x1", startDate := some "2024-01-01",
     endDate := some "2024-01-10", clicks := some 1, cost := some 5,
     revenue := some 9, profit := none },
   { id := some "b", name := some "x2", startDate := some "2024-01-01",
     endDate := some "2024-01-10", clicks := some 2, cost := some 5,
     revenue := some 8, profit := none },
   { id := some "c", name := some "x3", startDate := some "2024-01-01",
     endDate := some "2024-01-10", clicks := some 3, cost := some 5,
     revenue := some 7, profit := none }]

/-- C3 witness: the amended theorem on a concrete collection of three
records with identical `cost`, sorted ascending. -/
theorem c3_witness :
    (sortedCampaigns Field.cost SortDir.asc c3WList).filter
        (fun c => decide (sortValue Field.cost c = JsVal.num 5)) =
      c3WList.filter (fun c => decide (sortValue Field.cost c = JsVal.num 5)) :=
  c3_stable_sort Field.cost SortDir.asc c3WList (JsVal.num 5) (Or.inl (by decide))

/-- C4.  When sorting by `profit`, the comparison value resolved for a
record with `revenue = r` and `cost = cv` is the number `r - cv`,
whatever `profit` value is stored on the record. -/
theorem c4_profit_derived (a : Campaign) (r cv : Int) (hr : a.revenue = some r)
    (hc : a.cost = some cv) (p : Option Int) :
    sortValue Field.profit { a with profit := p } = JsVal.num (r - cv) := by
  simp [sortValue, resolveValue, getField, jsSub, jsToNumber, hr, hc, coalesce0]

/-- C4 witness: a record with `revenue = 500`, `cost = 300` and a stored
`profit` of `999` is compared by the derived value `200`. -/
theorem c4_witness :
    sortValue Field.profit
      { id := some "a", name := some "X", startDate := some "2024-01-01",
        endDate := some "2024-01-10", clicks := some 100, cost := some 300,
        revenue := some 500, profit := some 999 } = JsVal.num 200 :=
  c4_profit_derived
    { id := some "a", name := some "X", startDate := some "2024-01-01",
      endDate := some "2024-01-10", clicks := some 100, cost := some 300,
      revenue := some 500, profit := none } 500 300 rfl rfl (some 999)

/-- C5.  Clicking the current sort field toggles the direction and keeps
the field; clicking a different field selects it and resets the direction
to ascending; in particular two successive clicks on `cost` leave the
field at `cost` with the direction flipped from its value after the first
click. -/
theorem c5_sort_toggle (s : DashboardState) (f : Field) :
    (f = s.sortField → handleSort f s = { s with sortDirection := flipDir s.sortDirection }) ∧
      (f ≠ s.sortField →
        handleSort f s = { s with sortField := f, sortDirection := SortDir.asc }) ∧
      ((step (step s (Event.sortClick Field.cost)) (Event.sortClick Field.cost)).sortField =
          Field.cost ∧
        (step (step s (Event.sortClick Field.cost)) (Event.sortClick Field.cost)).sortDirection =
          flipDir (step s (Event.sortClick Field.cost)).sortDirection) := by
  refine ⟨fun h => ?_, fun h => ?_, ?_⟩
  · simp [handleSort, h]
  · simp [handleSort, h]
  · by_cases hc : Field.cost = s.sortField <;> simp [step, handleSort, hc, flipDir]

/-- State used by the C5 witness: the initial state, whose sort field is
`name` ascending. -/
def c5Base : DashboardState := initState none

/-- C5 witness: the toggle branch at the current field `name` and the
reset branch at the new field `cost`, on the initial state. -/
theorem c5_witness :
    handleSort Field.name c5Base = { c5Base with sortDirection := flipDir c5Base.sortDirection } ∧
      handleSort Field.cost c5Base =
        { c5Base with sortField := Field.cost, sortDirection := SortDir.asc } :=
  ⟨(c5_sort_toggle c5Base Field.name).1 rfl, (c5_sort_toggle c5Base Field.cost).2.1 (by decide)⟩

/-- C6.  The sorted view is a permutation of the canonical collection: it
is produced from a spread copy, contains exactly the same records, and the
canonical collection itself is left untouched (the embedding of
`sortedCampaigns` is a pure function of the collection — the component
state is not written by rendering). -/
theorem c6_view_permutes (f : Field) (dir : SortDir) (l : List Campaign) :
    (sortedCampaigns f dir l).Perm l :=
  List.mergeSort_perm l _

/-- A collection holding two distinct records that share the id `"a"`
(such a collection can only arise from the persisted store, bypassing the
form-time uniqueness guarantee). -/
def c7Dup : List Campaign :=
  [{ id := some "a", name := some "x1", startDate := none, endDate := none,
     clicks := none, cost := none, revenue := none, profit := none },
   { id := some "a", name := some "x2", startDate := none, endDate := none,
     clicks := none, cost := none, revenue := none, profit := none }]

/-- C7.  The claim states that for every collection, `remove(id)` shrinks
it by at most one element.  On a collection with two records sharing the
id, the filter deletes both, shrinking the collection by two. -/
theorem c7_counterexample :
    ¬ ((removeCampaign "a" c7Dup).length = c7Dup.length ∨
        (removeCampaign "a" c7Dup).length + 1 = c7Dup.length) := by
  decide

/-- Helper for C7: a lower bound on the filtered length when ids are
pairwise distinct. -/
theorem removeCampaign_length_ge (l : List Campaign) (i : String)
    (h : (l.map Campaign.id).Nodup) :
    l.length ≤ (removeCampaign i l).length + 1 := by
  induction l with
  | nil => simp [removeCampaign]
  | cons c t ih =>
    simp only [List.map_cons, List.nodup_cons] at h
    rcases h with ⟨hno, ht⟩
    by_cases hc : c.id = some i
    · have ht' : removeCampaign i t = t := by
        apply List.filter_eq_self.mpr
        intro x hx
        simp only [decide_eq_true_eq]
        intro hxi
        exact hno (hc ▸ hxi ▸ List.mem_map_of_mem Campaign.id hx)
      have hdrop : removeCampaign i (c :: t) = removeCampaign i t := by
        simp [removeCampaign, List.filter_cons, hc]
      rw [hdrop, ht']
      simp
    · have hkeep : removeCampaign i (c :: t) = c :: removeCampaign i t := by
        simp [removeCampaign, List.filter_cons, hc]
      rw [hkeep]
      simpa using ih ht

/-- C7 (amended).  On a collection whose ids are pairwise distinct — the
store invariant — `remove(id)` shrinks the collection by at most one
element: its size stays the same or drops by exactly one. -/
theorem c7_remove_shrinks (l : List Campaign) (i : String)
    (h : (l.map Campaign.id).Nodup) :
    (removeCampaign i l).length = l.length ∨
      (removeCampaign i l).length + 1 = l.length := by
  have h1 := removeCampaign_length_ge l i h
  have h2 : (removeCampaign i l).length ≤ l.length := List.length_filter_le _ l
  omega

/-- A collection with two distinct ids, used by the C7 witness. -/
def c7List : List Campaign :=
  [{ id := some "a", name := some "x1", startDate := none, endDate := none,
     clicks := none, cost := none, revenue := none, profit := none },
   { id := some "b", name := some "x2", startDate := none, endDate := none,
     clicks := none, cost := none, revenue := none, profit := none }]

/-- C7 witness: the amended theorem at a concrete duplicate-free
collection. -/
theorem c7_witness :
    (removeCampaign "a" c7List).length = c7List.length ∨
      (removeCampaign "a" c7List).length + 1 = c7List.length :=
  c7_remove_shrinks c7List "a" (by decide)

/-- Helper for C8: folding add events appends the added records in
order. -/
theorem runAdds_campaigns_aux (cs : List Campaign) (s : DashboardState) :
    (cs.foldl (fun s c => step s (Event.add c)) s).campaigns = s.campaigns ++ cs := by
  induction cs generalizing s with
  | nil => simp
  | cons c t ih =>
    rw [List.foldl_cons, ih]
    simp [step, saveEffect, handleAddCampaign]

/-- C8.  Every add appends its record at the end of the collection (hence
grows it by exactly one element), and a sequence of adds with pairwise
distinct ids starting from the empty collection yields a collection
holding exactly those ids, in order, with no duplicates. -/
theorem c8_add_unique :
    (∀ (s : DashboardState) (c : Campaign),
        (step s (Event.add c)).campaigns = s.campaigns ++ [c]) ∧
      (∀ (store0 : Option String) (cs : List Campaign),
        (cs.map Campaign.id).Nodup →
        (runAdds store0 cs).campaigns.map Campaign.id = cs.map Campaign.id ∧
          ((runAdds store0 cs).campaigns.map Campaign.id).Nodup) := by
  constructor
  · intro s c; rfl
  · intro store0 cs h
    have hc : (runAdds store0 cs).campaigns = cs := by
      simpa [runAdds, initState] using runAdds_campaigns_aux cs (initState store0)
    rw [hc]
    exact ⟨rfl, h⟩

/-- Two records with distinct ids, used by the C8 witness. -/
def c8List : List Campaign :=
  [{ id := some "a", name := some "X", startDate := some "2024-01-01",
     endDate := some "2024-01-10", clicks := some 100, cost := some 50,
     revenue := some 80, profit := none },
   { id := some "b", name := some "Y", startDate := some "2024-01-01",
     endDate := some "2024-01-10", clicks := some 10, cost := some 10,
     revenue := some 100, profit := none }]

/-- C8 witness: the uniqueness part at a concrete two-element sequence of
adds with distinct ids. -/
theorem c8_witness :
    (runAdds none c8List).campaigns.map Campaign.id = c8List.map Campaign.id ∧
      ((runAdds none c8List).campaigns.map Campaign.id).Nodup :=
  c8_add_unique.2 none c8List (by decide)

/-- A record whose `startDate` property is absent. -/
def c9Rec : Campaign :=
  { id := some "a", name := some "X", startDate := none, endDate := some "2024-01-10",
    clicks := some 1, cost := some 2, revenue := some 3, profit := none }

/-- C9.  The claim states that an absent resolved value is replaced by the
number 0 for any sort field, including the date fields.  For a record with
no `startDate`, the comparator computes `new Date(undefined).getTime()`,
which is `NaN`, and `NaN ?? 0` is still `NaN` — the record is compared as
`NaN` (tying with every value), not as `0`. -/
theorem c9_counterexample :
    sortValue Field.startDate c9Rec = JsVal.nan ∧
      sortValue Field.startDate c9Rec ≠ JsVal.num 0 := by
  decide

/-- C9 (amended).  For every sort field other than `startDate`, `endDate`
and `profit`, a record whose property is absent (`undefined`) is compared
as the number `0`, substituted for comparison purposes only (the record is
a value and is never written).  For the date fields an absent property
propagates as `NaN` through date parsing, and for `profit` a missing
`revenue` or `cost` makes the derived difference `NaN`; in those cases the
`?? 0` fallback does not apply. -/
theorem c9_absent_resolves_zero (a : Campaign) (f : Field)
    (h1 : f ≠ Field.startDate) (h2 : f ≠ Field.endDate) (h3 : f ≠ Field.profit)
    (h : getField a f = JsVal.undef) :
    sortValue f a = JsVal.num 0 := by
  simp [sortValue, resolveValue, h1, h2, h3, h, coalesce0]

/-- A record whose `name` property is absent, used by the C9 witness. -/
def c9WRec : Campaign :=
  { id := some "a", name := none, startDate := some "2024-01-01",
    endDate := some "2024-01-10", clicks := some 1, cost := some 2,
    revenue := some 3, profit := none }

/-- C9 witness: the amended theorem at the concrete field `name` on a
record with no name. -/
theorem c9_witness : sortValue Field.name c9WRec = JsVal.num 0 :=
  c9_absent_resolves_zero c9WRec Field.name (by decide) (by decide) (by decide) (by decide)

/-- C10.  `remove(id)` deletes every record whose id equals the given id:
none remains in the result, the result is a sublist of the original
collection (remaining elements keep their original order), and every
record with a different id is kept. -/
theorem c10_remove_all (l : List Campaign) (i : String) :
    (∀ c ∈ removeCampaign i l, c.id ≠ some i) ∧
      List.Sublist (removeCampaign i l) l ∧
      (∀ c ∈ l, c.id ≠ some i → c ∈ removeCampaign i l) := by
  refine ⟨?_, List.filter_sublist l, ?_⟩
  · intro c hc
    have h := (List.mem_filter.mp hc).2
    simpa using h
  · intro c hc hne
    exact List.mem_filter.mpr ⟨hc, by simpa using hne⟩

/-- A collection with two records sharing id `"a"` around a record with id
`"b"`, used by the C10 witness. -/
def c10List : List Campaign :=
  [{ id := some "a", name := some "x1", startDate := none, endDate := none,
     clicks := none, cost := none, revenue := none, profit := none },
   { id := some "b", name := some "keep", startDate := none, endDate := none,
     clicks := none, cost := none, revenue := none, profit := none },
   { id := some "a", name := some "x2", startDate := none, endDate := none,
     clicks := none, cost := none, revenue := none, profit := none }]

/-- The record with id `"b"` from `c10List`. -/
def c10B : Campaign :=
  { id := some "b", name := some "keep", startDate := none, endDate := none,
    clicks := none, cost := none, revenue := none, profit := none }

/-- C10 witness: on the concrete collection with a duplicated id, the kept
record is in the result and the result is an order-preserving sublist. -/
theorem c10_witness :
    c10B ∈ removeCampaign "a" c10List ∧ List.Sublist (removeCampaign "a" c10List) c10List :=
  ⟨(c10_remove_all c10List "a").2.2 c10B (by decide) (by decide),
   (c10_remove_all c10List "a").2.1⟩

end Campaigns
